import Mathlib

/-!
Shallow embedding of the validated encode/decode boundary of the `ebcc` crate
(src/src/codec.rs, src/src/config.rs, src/src/error.rs).

The foreign EBCC engine (`ebcc_sys::ebcc_encode`, `ebcc_sys::ebcc_decode`,
`ebcc_sys::free_buffer`) is an external black box; it is modelled as an
explicit oracle parameter.  Each wrapper additionally returns the number of
foreign invocations it performed, so that fail-fast properties (the foreign
routine is never invoked on a validation failure) are directly expressible.

Machine integers: the embedding models a 64-bit platform, with `usize`
arithmetic made explicit through `usizeMax` and `isizeMax`.

Floating point: the wrapper only inspects `f32` values through `<= 0.0`,
`is_finite` and `Display` of non-finite values, so `f32` is embedded as an
inductive with finite (rational) values, the two infinities and NaN, with
IEEE comparison semantics (every comparison against NaN is false).
-/

namespace Ebcc

/-- Model of an `f32` value at the granularity the wrapper inspects:
finite values carry their exact rational value; the two infinities and NaN
are separate constructors. -/
inductive F32 where
  | finite (val : ℚ)
  | inf
  | negInf
  | nan
deriving DecidableEq

/-- Rust `f32::is_finite`. -/
def F32.isFinite : F32 → Bool
  | .finite _ => true
  | _ => false

/-- IEEE `<=` on `f32`: any comparison involving NaN is false. -/
def F32.le : F32 → F32 → Bool
  | .nan, _ => false
  | _, .nan => false
  | .negInf, _ => true
  | _, .negInf => false
  | _, .inf => true
  | .inf, _ => false
  | .finite a, .finite b => decide (a ≤ b)

/-- IEEE `<` on `f32`: any comparison involving NaN is false. -/
def F32.lt : F32 → F32 → Bool
  | .nan, _ => false
  | _, .nan => false
  | .negInf, .negInf => false
  | .negInf, _ => true
  | _, .negInf => false
  | .inf, _ => false
  | _, .inf => true
  | .finite a, .finite b => decide (a < b)

/-- Rust `Display` for `f32`, needed only on non-finite values: the single
format string that interpolates an `f32` (the non-finite element error in
`ebcc_encode`) is guarded by `!value.is_finite()`, and Rust prints the three
non-finite values as "NaN", "inf" and "-inf".  The finite case never reaches
a format string in the embedded code. -/
def F32.display : F32 → String
  | .nan => "NaN"
  | .inf => "inf"
  | .negInf => "-inf"
  | .finite _ => "finite"

/-- src/src/error.rs: the closed error taxonomy `EBCCError`. -/
inductive EBCCError where
  | InvalidInput (msg : String)
  | InvalidConfig (msg : String)
  | CompressionError (msg : String)
  | DecompressionError (msg : String)
deriving DecidableEq

deriving instance DecidableEq for Except

/-- src/src/error.rs: `EBCCResult<T>`. -/
abbrev EBCCResult (α : Type) := Except EBCCError α

/-- The generated `ebcc_sys::residual_t` discriminants referenced by the
wrapper (NONE, MAX_ERROR, RELATIVE_ERROR). -/
inductive ResidualT where
  | NONE
  | MAX_ERROR
  | RELATIVE_ERROR
deriving DecidableEq

/-- src/src/config.rs: `EBCCResidualType`. -/
inductive EBCCResidualType where
  | Jpeg2000Only
  | AbsoluteError (error : F32)
  | RelativeError (error : F32)
deriving DecidableEq

/-- src/src/config.rs: `EBCCResidualType::as_residual`. -/
def EBCCResidualType.as_residual : EBCCResidualType → ResidualT
  | .Jpeg2000Only => .NONE
  | .AbsoluteError _ => .MAX_ERROR
  | .RelativeError _ => .RELATIVE_ERROR

/-- src/src/config.rs: `EBCCResidualType::as_error`. -/
def EBCCResidualType.as_error : EBCCResidualType → F32
  | .Jpeg2000Only => .finite 0
  | .AbsoluteError error => error
  | .RelativeError error => error

/-- src/src/config.rs: `EBCCConfig`. -/
structure EBCCConfig where
  base_cr : F32
  residual_compression_type : EBCCResidualType
deriving DecidableEq

/-- src/src/config.rs: `EBCCConfig::validate`. -/
def EBCCConfig.validate (c : EBCCConfig) : EBCCResult Unit :=
  if c.base_cr.le (F32.finite 0) then
    .error (.InvalidConfig "Base compression ratio must be positive")
  else
    match c.residual_compression_type with
    | .AbsoluteError error | .RelativeError error =>
      if error.le (F32.finite 0) then
        .error (.InvalidConfig "Error bound must be positive")
      else
        .ok ()
    | .Jpeg2000Only => .ok ()

/-- 64-bit platform model of `usize::MAX`. -/
def usizeMax : Nat := 2 ^ 64 - 1

/-- 64-bit platform model of `isize::MAX as usize`. -/
def isizeMax : Nat := 2 ^ 63 - 1

/-- `std::mem::size_of::<f32>()`. -/
def sizeOfF32 : Nat := 4

/-- `usize::checked_mul`. -/
def checkedMul (a b : Nat) : Option Nat :=
  if a * b ≤ usizeMax then some (a * b) else none

/-- `shape.iter().try_fold(1usize, |acc, &d| acc.checked_mul(d))`. -/
def checkedProduct (dims : List Nat) : Option Nat :=
  dims.foldl (fun acc d => acc.bind (fun a => checkedMul a d)) (some 1)

/-- A 3-dimensional `f32` array (`ndarray` `ArrayView3<f32>` /
`ArrayViewMut3<f32>`): the shape `(d0, d1, d2)` together with the elements in
standard (row-major) iteration order, which is the order `data.iter()`
visits. -/
structure Grid3 where
  d0 : Nat
  d1 : Nat
  d2 : Nat
  data : List F32
deriving DecidableEq

/-- The `ndarray` view invariant: the element count matches the shape. -/
def Grid3.wf (g : Grid3) : Prop := g.data.length = g.d0 * g.d1 * g.d2

/-- The foreign-call configuration record `ebcc_sys::codec_config_t` as filled
in by `ebcc_encode`. -/
structure codec_config_t where
  dims : Nat × Nat × Nat
  base_cr : F32
  residual_compression_type : ResidualT
  residual_cr : F32
  error : F32
deriving DecidableEq

/-- The `ffi_config` record built by `ebcc_encode` (src/src/codec.rs lines
96-102): `residual_cr` is always the placeholder `1.0`. -/
def mkCodecConfig (data : Grid3) (config : EBCCConfig) : codec_config_t :=
  { dims := (data.d0, data.d1, data.d2)
    base_cr := config.base_cr
    residual_compression_type := config.residual_compression_type.as_residual
    residual_cr := F32.finite 1
    error := config.residual_compression_type.as_error }

/-- Oracle model of the foreign `ebcc_sys::ebcc_encode` routine: it receives
the defensively copied element buffer and the configuration record and yields
the returned size together with the output-pointer slot (`none` models a null
pointer; the list is the pointed-to byte buffer). -/
def ForeignEncode : Type := List F32 → codec_config_t → Nat × Option (List Nat)

/-- Oracle model of the foreign `ebcc_sys::ebcc_decode` routine: it receives
the defensively copied byte buffer and its length and yields the returned
element count together with the output-pointer slot. -/
def ForeignDecode : Type := List Nat → Nat → Nat × Option (List F32)

/-- The scan `for (i, &value) in data.iter().enumerate()` in `ebcc_encode`:
the index and value of the first non-finite element, if any. -/
def firstNonFinite : List F32 → Option (Nat × F32)
  | [] => none
  | v :: rest =>
    if v.isFinite then (firstNonFinite rest).map (fun p => (p.1 + 1, p.2))
    else some (0, v)

/-- The error message of the non-finite element scan of `ebcc_encode`. -/
def nonFiniteMsg (iv : Nat × F32) : String :=
  "Non-finite value " ++ iv.2.display ++ " at index " ++ toString iv.1

/-- The error message of the size-32 dimension check of `ebcc_encode`. -/
def dimsTooSmallMsg (d1 d2 : Nat) : String :=
  "EBCC requires last two dimensions to be at least 32x32, got "
    ++ toString d1 ++ "x" ++ toString d2

/-- The tail of `ebcc_encode` after the foreign call: error on a zero size or
null output pointer, else copy out exactly the returned number of bytes. -/
def foreignEncodeOutcome (r : Nat × Option (List Nat)) : EBCCResult (List Nat) :=
  if r.1 = 0 ∨ r.2 = none then
    .error (.CompressionError "ebcc_encode C function returned null or zero size")
  else
    .ok ((r.2.getD []).take r.1)

/-- The part of `ebcc_encode` after the shape checks: configuration
validation, the non-finite element scan, and the foreign call. -/
def encodePostShape (fenc : ForeignEncode) (data : Grid3) (config : EBCCConfig) :
    EBCCResult (List Nat) × Nat :=
  match config.validate with
  | .error e => (.error e, 0)
  | .ok _ =>
    match firstNonFinite data.data with
    | some iv => (.error (.InvalidInput (nonFiniteMsg iv)), 0)
    | none => (foreignEncodeOutcome (fenc data.data (mkCodecConfig data config)), 1)

/-- src/src/codec.rs: `ebcc_encode`, parameterised by the foreign encode
oracle.  Returns the result together with the number of foreign invocations
performed (0 or 1). -/
def ebcc_encode (fenc : ForeignEncode) (data : Grid3) (config : EBCCConfig) :
    EBCCResult (List Nat) × Nat :=
  if data.d0 = 0 ∨ data.d1 = 0 ∨ data.d2 = 0 then
    (.error (.InvalidInput "All dimensions must be > 0"), 0)
  else
    match checkedProduct [data.d0, data.d1, data.d2] with
    | none => (.error (.InvalidInput "Dimension overflow"), 0)
    | some total_elements =>
      if total_elements > isizeMax / sizeOfF32 then
        (.error (.InvalidInput "Data too large"), 0)
      else if data.d1 < 32 ∨ data.d2 < 32 then
        (.error (.InvalidInput (dimsTooSmallMsg data.d1 data.d2)), 0)
      else
        encodePostShape fenc data config

/-- Rust Debug output for the `&[usize]` shape slice, as interpolated by the
decode shape-mismatch message. -/
def shapeDebug (g : Grid3) : String :=
  "[" ++ toString g.d0 ++ ", " ++ toString g.d1 ++ ", " ++ toString g.d2 ++ "]"

/-- src/src/codec.rs: `ebcc_decode_into`, parameterised by the foreign decode
oracle.  Returns the result and the final contents of the caller-owned output
view, together with the number of foreign invocations performed. -/
def ebcc_decode_into (fdec : ForeignDecode) (compressed_data : List Nat)
    (decompressed_data : Grid3) : (EBCCResult Unit × Grid3) × Nat :=
  if compressed_data.isEmpty then
    ((.error (.InvalidInput "Compressed data is empty"), decompressed_data), 0)
  else
    let r := fdec compressed_data compressed_data.length
    if r.1 = 0 ∨ r.2 = none then
      ((.error (.DecompressionError
        "ebcc_decode C function returned null or zero size"),
        decompressed_data), 1)
    else
      let decompressed_slice := (r.2.getD []).take r.1
      if decompressed_slice.length
          = decompressed_data.d0 * decompressed_data.d1 * decompressed_data.d2 then
        ((.ok (), { decompressed_data with data := decompressed_slice }), 1)
      else
        ((.error (.InvalidInput
          ("Decompressed data should be of shape " ++ shapeDebug decompressed_data
            ++ " but decompressed to " ++ toString decompressed_slice.length
            ++ " elements")), decompressed_data), 1)

/-- A foreign encode oracle that always fails (returns size 0 and leaves the
output pointer null), used to instantiate oracle-independent statements. -/
def nullForeignEncode : ForeignEncode := fun _ _ => (0, none)

/-- A foreign decode oracle that always fails. -/
def nullForeignDecode : ForeignDecode := fun _ _ => (0, none)

/-- The grid-malformedness conditions `ebcc_encode` validates: a zero
dimension, a size over the addressable element bound, a height or width
below 32, or a non-finite element. -/
def encodeInputMalformed (g : Grid3) : Prop :=
  g.d0 = 0 ∨ g.d1 = 0 ∨ g.d2 = 0 ∨
  g.d0 * g.d1 * g.d2 > isizeMax / sizeOfF32 ∨
  g.d1 < 32 ∨ g.d2 < 32 ∨
  (∃ v ∈ g.data, v.isFinite = false)

/-- Foreign-failure discriminator on the error taxonomy: `CompressionError`
and `DecompressionError` are the kinds that report a foreign-call failure. -/
def EBCCError.isForeignFailure : EBCCError → Bool
  | .CompressionError _ => true
  | .DecompressionError _ => true
  | _ => false

/-- A valid policy: base ratio 10, base-only (the `EBCCConfig::new` default). -/
def cfg10 : EBCCConfig := ⟨F32.finite 10, .Jpeg2000Only⟩

/-- A policy with a negative base ratio, which fails validation. -/
def negRatioConfig : EBCCConfig := ⟨F32.finite (-1), .Jpeg2000Only⟩

/-- An all-ones well-formed 1x32x32 grid. -/
def onesGrid : Grid3 := ⟨1, 32, 32, List.replicate 1024 (F32.finite 1)⟩

/-- An all-zeros well-formed 1x32x32 grid, used as an output target. -/
def zerosGrid : Grid3 := ⟨1, 32, 32, List.replicate 1024 (F32.finite 0)⟩

/-- A grid with a zero leading dimension. -/
def zeroDimGrid : Grid3 := ⟨0, 32, 32, []⟩

/-- A grid whose last two dimensions are below 32. -/
def smallDimsGrid : Grid3 := ⟨1, 16, 40, List.replicate 640 (F32.finite 1)⟩

/-- A grid whose dimension product overflows the addressable bound. -/
def hugeGrid : Grid3 := ⟨2 ^ 62, 32, 32, []⟩

/-- A well-formed 1x32x32 grid whose first element is NaN. -/
def nanGrid : Grid3 := ⟨1, 32, 32, F32.nan :: List.replicate 1023 (F32.finite 1)⟩

/-- A well-formed 1x1x1 grid, used as a decode output target. -/
def tinyGrid : Grid3 := ⟨1, 1, 1, [F32.finite 0]⟩

/-- An encode oracle that always succeeds with the 3-byte buffer [7, 7, 7]. -/
def constEncodeOracle : ForeignEncode := fun _ _ => (3, some [7, 7, 7])

/-- A decode oracle that always succeeds with 1024 one-valued elements. -/
def constDecodeOracle : ForeignDecode :=
  fun _ _ => (1024, some (List.replicate 1024 (F32.finite 1)))

/-- A decode oracle that always succeeds with 2 zero-valued elements. -/
def pairDecodeOracle : ForeignDecode :=
  fun _ _ => (2, some [F32.finite 0, F32.finite 0])

/-! Helper lemmas about the embedded operations. -/

theorem F32.le_zero_eq_false_of_zero_lt (x : F32)
    (h : (F32.finite 0).lt x = true) : x.le (F32.finite 0) = false := by
  cases x <;> simp_all [F32.lt, F32.le]

theorem checkedProduct_three (a b c : Nat) :
    checkedProduct [a, b, c] =
      if a ≤ usizeMax then
        if a * b ≤ usizeMax then
          if a * b * c ≤ usizeMax then some (a * b * c) else none
        else none
      else none := by
  by_cases h1 : a ≤ usizeMax
  · by_cases h2 : a * b ≤ usizeMax
    · by_cases h3 : a * b * c ≤ usizeMax
      · simp [checkedProduct, checkedMul, h1, h2, h3]
      · simp [checkedProduct, checkedMul, h1, h2, h3]
    · simp [checkedProduct, checkedMul, h1, h2]
  · simp [checkedProduct, checkedMul, h1]

theorem checkedProduct_three_eq_some (a b c t : Nat)
    (h : checkedProduct [a, b, c] = some t) : t = a * b * c := by
  rw [checkedProduct_three] at h
  split_ifs at h with h1 h2 h3
  simp_all

theorem checkedProduct_three_of_le (a b c : Nat) (hb : 1 ≤ b) (hc : 1 ≤ c)
    (h : a * b * c ≤ usizeMax) : checkedProduct [a, b, c] = some (a * b * c) := by
  have h1 : a ≤ usizeMax := by
    have : a * 1 * 1 ≤ a * b * c := Nat.mul_le_mul (Nat.mul_le_mul_left a hb) hc
    omega
  have h2 : a * b ≤ usizeMax := by
    have : a * b * 1 ≤ a * b * c := Nat.mul_le_mul_left (a * b) hc
    omega
  rw [checkedProduct_three, if_pos h1, if_pos h2, if_pos h]

theorem firstNonFinite_eq_none_iff (l : List F32) :
    firstNonFinite l = none ↔ ∀ v ∈ l, v.isFinite = true := by
  induction l with
  | nil => simp [firstNonFinite]
  | cons v rest ih =>
    by_cases hv : v.isFinite
    · simp [firstNonFinite, hv, ih]
    · simp [firstNonFinite, hv]

theorem firstNonFinite_spec (l : List F32) (i : Nat) (v : F32)
    (h : firstNonFinite l = some (i, v)) :
    i < l.length ∧ l.getD i F32.nan = v ∧ v.isFinite = false ∧
      ∀ j < i, (l.getD j F32.nan).isFinite = true := by
  induction l generalizing i v with
  | nil => simp [firstNonFinite] at h
  | cons w rest ih =>
    by_cases hw : w.isFinite
    · simp only [firstNonFinite, hw, if_pos] at h
      rw [Option.map_eq_some'] at h
      obtain ⟨⟨i', v'⟩, hr, hiv⟩ := h
      obtain ⟨hlen, hget, hfin, hmin⟩ := ih i' v' hr
      simp only [Prod.mk.injEq] at hiv
      obtain ⟨hi, hv⟩ := hiv
      subst hi
      subst hv
      refine ⟨by simpa using Nat.succ_lt_succ hlen, by simpa using hget, hfin, ?_⟩
      intro j hj
      match j with
      | 0 => simpa using hw
      | Nat.succ k => exact hmin k (by omega)
    · simp only [firstNonFinite, hw, if_neg, Bool.false_eq_true, if_false,
        Option.some.injEq, Prod.mk.injEq] at h
      obtain ⟨hi, hv⟩ := h
      subst hi
      subst hv
      exact ⟨by simp, by simp, by simpa using hw, by omega⟩

theorem ebcc_encode_zero_dim (fenc : ForeignEncode) (g : Grid3) (c : EBCCConfig)
    (h : g.d0 = 0 ∨ g.d1 = 0 ∨ g.d2 = 0) :
    ebcc_encode fenc g c = (.error (.InvalidInput "All dimensions must be > 0"), 0) := by
  simp [ebcc_encode, h]

theorem ebcc_encode_shape_ok (fenc : ForeignEncode) (g : Grid3) (c : EBCCConfig)
    (h0 : g.d0 ≠ 0) (h1 : 32 ≤ g.d1) (h2 : 32 ≤ g.d2)
    (hsz : g.d0 * g.d1 * g.d2 ≤ isizeMax / sizeOfF32) :
    ebcc_encode fenc g c = encodePostShape fenc g c := by
  have hmax : g.d0 * g.d1 * g.d2 ≤ usizeMax := by
    have : isizeMax / sizeOfF32 ≤ usizeMax := by decide
    omega
  have hprod : checkedProduct [g.d0, g.d1, g.d2] = some (g.d0 * g.d1 * g.d2) :=
    checkedProduct_three_of_le _ _ _ (by omega) (by omega) hmax
  have hz : ¬(g.d0 = 0 ∨ g.d1 = 0 ∨ g.d2 = 0) := by omega
  have hbig : ¬(g.d0 * g.d1 * g.d2 > isizeMax / sizeOfF32) := by omega
  have hsmall : ¬(g.d1 < 32 ∨ g.d2 < 32) := by omega
  rw [ebcc_encode, if_neg hz, hprod]
  show (if g.d0 * g.d1 * g.d2 > isizeMax / sizeOfF32 then
          (Except.error (EBCCError.InvalidInput "Data too large"), 0)
        else if g.d1 < 32 ∨ g.d2 < 32 then
          (Except.error (EBCCError.InvalidInput (dimsTooSmallMsg g.d1 g.d2)), 0)
        else encodePostShape fenc g c) = encodePostShape fenc g c
  rw [if_neg hbig, if_neg hsmall]

theorem encodePostShape_validate_error (fenc : ForeignEncode) (g : Grid3)
    (c : EBCCConfig) (e : EBCCError) (hc : c.validate = .error e) :
    encodePostShape fenc g c = (.error e, 0) := by
  rw [encodePostShape, hc]

theorem encodePostShape_nonfinite (fenc : ForeignEncode) (g : Grid3)
    (c : EBCCConfig) (iv : Nat × F32) (hc : c.validate = .ok ())
    (hnf : firstNonFinite g.data = some iv) :
    encodePostShape fenc g c = (.error (.InvalidInput (nonFiniteMsg iv)), 0) := by
  rw [encodePostShape, hc, hnf]

theorem encodePostShape_foreign (fenc : ForeignEncode) (g : Grid3)
    (c : EBCCConfig) (hc : c.validate = .ok ())
    (hnf : firstNonFinite g.data = none) :
    encodePostShape fenc g c =
      (foreignEncodeOutcome (fenc g.data (mkCodecConfig g c)), 1) := by
  rw [encodePostShape, hc, hnf]

theorem ebcc_encode_overflow (fenc : ForeignEncode) (g : Grid3) (c : EBCCConfig)
    (hz : ¬(g.d0 = 0 ∨ g.d1 = 0 ∨ g.d2 = 0))
    (hcp : checkedProduct [g.d0, g.d1, g.d2] = none) :
    ebcc_encode fenc g c = (.error (.InvalidInput "Dimension overflow"), 0) := by
  rw [ebcc_encode, if_neg hz, hcp]

theorem ebcc_encode_too_large (fenc : ForeignEncode) (g : Grid3) (c : EBCCConfig)
    (hz : ¬(g.d0 = 0 ∨ g.d1 = 0 ∨ g.d2 = 0)) (t : Nat)
    (hcp : checkedProduct [g.d0, g.d1, g.d2] = some t)
    (hbig : isizeMax / sizeOfF32 < t) :
    ebcc_encode fenc g c = (.error (.InvalidInput "Data too large"), 0) := by
  rw [ebcc_encode, if_neg hz, hcp]
  show (if t > isizeMax / sizeOfF32 then
          (Except.error (EBCCError.InvalidInput "Data too large"), 0)
        else if g.d1 < 32 ∨ g.d2 < 32 then
          (Except.error (EBCCError.InvalidInput (dimsTooSmallMsg g.d1 g.d2)), 0)
        else encodePostShape fenc g c)
      = (Except.error (EBCCError.InvalidInput "Data too large"), 0)
  rw [if_pos hbig]

theorem ebcc_encode_dims_small (fenc : ForeignEncode) (g : Grid3) (c : EBCCConfig)
    (hz : ¬(g.d0 = 0 ∨ g.d1 = 0 ∨ g.d2 = 0)) (t : Nat)
    (hcp : checkedProduct [g.d0, g.d1, g.d2] = some t)
    (hbig : t ≤ isizeMax / sizeOfF32) (hsmall : g.d1 < 32 ∨ g.d2 < 32) :
    ebcc_encode fenc g c = (.error (.InvalidInput (dimsTooSmallMsg g.d1 g.d2)), 0) := by
  rw [ebcc_encode, if_neg hz, hcp]
  show (if t > isizeMax / sizeOfF32 then
          (Except.error (EBCCError.InvalidInput "Data too large"), 0)
        else if g.d1 < 32 ∨ g.d2 < 32 then
          (Except.error (EBCCError.InvalidInput (dimsTooSmallMsg g.d1 g.d2)), 0)
        else encodePostShape fenc g c)
      = (Except.error (EBCCError.InvalidInput (dimsTooSmallMsg g.d1 g.d2)), 0)
  rw [if_neg (by omega), if_pos hsmall]

theorem validate_error_is_config (c : EBCCConfig) (e : EBCCError)
    (h : c.validate = .error e) : ∃ m, e = .InvalidConfig m := by
  unfold EBCCConfig.validate at h
  rcases hres : c.residual_compression_type with _ | b | b <;>
      simp only [hres] at h <;> split_ifs at h <;>
      exact ⟨_, by simpa using h.symm⟩

theorem ebcc_decode_into_empty (fdec : ForeignDecode) (out : Grid3) :
    ebcc_decode_into fdec [] out =
      ((.error (.InvalidInput "Compressed data is empty"), out), 0) := rfl

theorem ebcc_decode_into_foreign_failure (fdec : ForeignDecode) (bytes : List Nat)
    (out : Grid3) (hne : bytes ≠ [])
    (h : (fdec bytes bytes.length).1 = 0 ∨ (fdec bytes bytes.length).2 = none) :
    ebcc_decode_into fdec bytes out =
      ((.error (.DecompressionError
        "ebcc_decode C function returned null or zero size"), out), 1) := by
  have hemp : bytes.isEmpty = false := by simpa [List.isEmpty_iff] using hne
  simp [ebcc_decode_into, hemp, h]

theorem ebcc_decode_into_mismatch (fdec : ForeignDecode) (bytes : List Nat)
    (out : Grid3) (hne : bytes ≠ []) (size : Nat) (buf : List F32)
    (hf : fdec bytes bytes.length = (size, some buf)) (hsz : size ≠ 0)
    (hlen : (buf.take size).length ≠ out.d0 * out.d1 * out.d2) :
    ebcc_decode_into fdec bytes out =
      ((.error (.InvalidInput ("Decompressed data should be of shape "
          ++ shapeDebug out ++ " but decompressed to "
          ++ toString (buf.take size).length ++ " elements")), out), 1) := by
  have hemp : bytes.isEmpty = false := by simpa [List.isEmpty_iff] using hne
  simp only [List.length_take] at hlen
  simp [ebcc_decode_into, hemp, hf, hsz, hlen]

theorem ebcc_decode_into_success (fdec : ForeignDecode) (bytes : List Nat)
    (out : Grid3) (hne : bytes ≠ []) (size : Nat) (buf : List F32)
    (hf : fdec bytes bytes.length = (size, some buf)) (hsz : size ≠ 0)
    (hlen : (buf.take size).length = out.d0 * out.d1 * out.d2) :
    ebcc_decode_into fdec bytes out =
      ((.ok (), { out with data := buf.take size }), 1) := by
  have hemp : bytes.isEmpty = false := by simpa [List.isEmpty_iff] using hne
  simp only [List.length_take] at hlen
  simp [ebcc_decode_into, hemp, hf, hsz, hlen]

theorem ebcc_decode_into_frame (fdec : ForeignDecode) (bytes : List Nat)
    (out : Grid3) (e : EBCCError)
    (h : ((ebcc_decode_into fdec bytes out).1).1 = .error e) :
    ((ebcc_decode_into fdec bytes out).1).2 = out := by
  by_cases hemp : bytes = []
  · subst hemp
    rw [ebcc_decode_into_empty]
  · by_cases hfail : (fdec bytes bytes.length).1 = 0 ∨ (fdec bytes bytes.length).2 = none
    · rw [ebcc_decode_into_foreign_failure fdec bytes out hemp hfail]
    · rcases hbuf : (fdec bytes bytes.length).2 with _ | buf
      · exact absurd (Or.inr hbuf) hfail
      · have hsz : (fdec bytes bytes.length).1 ≠ 0 := fun h0 => hfail (Or.inl h0)
        have hf : fdec bytes bytes.length = ((fdec bytes bytes.length).1, some buf) := by
          rw [← hbuf]
        by_cases hlen : (buf.take (fdec bytes bytes.length).1).length
            = out.d0 * out.d1 * out.d2
        · rw [ebcc_decode_into_success fdec bytes out hemp _ buf hf hsz hlen] at h
          exact absurd h (by simp)
        · rw [ebcc_decode_into_mismatch fdec bytes out hemp _ buf hf hsz hlen]

theorem firstNonFinite_replicate (n : Nat) (q : ℚ) :
    firstNonFinite (List.replicate n (F32.finite q)) = none := by
  induction n with
  | zero => rfl
  | succ k ih => simp [List.replicate_succ, firstNonFinite, F32.isFinite, ih]

/-! The claims. -/

/-- C3: for every `CompressionPolicy`, `validate` returns `InvalidConfig` when
the base ratio compares `<= 0.0`, returns `InvalidConfig` when the residual
mode carries an error bound comparing `<= 0.0`, and returns `Ok(())` for the
base-only mode whenever the base ratio is `> 0.0`, with no further checks.
Purity and absence of side effects hold by construction: `validate` is a
function of the policy value alone. -/
theorem validate_config_spec (c : EBCCConfig) :
    (c.base_cr.le (F32.finite 0) = true →
      ∃ m, c.validate = .error (.InvalidConfig m)) ∧
    (∀ b, (c.residual_compression_type = .AbsoluteError b ∨
        c.residual_compression_type = .RelativeError b) →
      b.le (F32.finite 0) = true →
      ∃ m, c.validate = .error (.InvalidConfig m)) ∧
    (c.residual_compression_type = .Jpeg2000Only →
      (F32.finite 0).lt c.base_cr = true → c.validate = .ok ()) := by
  refine ⟨?_, ?_, ?_⟩
  · intro h
    exact ⟨"Base compression ratio must be positive",
      by simp [EBCCConfig.validate, h]⟩
  · intro b hb hble
    by_cases hcr : c.base_cr.le (F32.finite 0)
    · exact ⟨"Base compression ratio must be positive",
        by simp [EBCCConfig.validate, hcr]⟩
    · refine ⟨"Error bound must be positive", ?_⟩
      rcases hb with hb | hb <;> simp [EBCCConfig.validate, hcr, hb, hble]
  · intro hres hpos
    simp [EBCCConfig.validate, F32.le_zero_eq_false_of_zero_lt c.base_cr hpos, hres]

/-- C3 witness: the three branches of `validate_config_spec` at concrete
policies: a negative base ratio, a negative absolute error bound, and the
valid base-only default. -/
theorem validate_config_spec_witness :
    ((F32.finite (-1)).le (F32.finite 0) = true ∧
      ∃ m, negRatioConfig.validate = .error (.InvalidConfig m)) ∧
    ((F32.finite (-1)).le (F32.finite 0) = true ∧
      ∃ m, EBCCConfig.validate ⟨F32.finite 10, .AbsoluteError (F32.finite (-1))⟩
        = .error (.InvalidConfig m)) ∧
    ((F32.finite 0).lt (F32.finite 10) = true ∧ cfg10.validate = .ok ()) :=
  ⟨⟨by decide, (validate_config_spec negRatioConfig).1 (by decide)⟩,
   ⟨by decide,
    (validate_config_spec ⟨F32.finite 10, .AbsoluteError (F32.finite (-1))⟩).2.1
      (F32.finite (-1)) (Or.inl rfl) (by decide)⟩,
   ⟨by decide, (validate_config_spec cfg10).2.2 rfl (by decide)⟩⟩

/-- C7: for every output view and every foreign decode oracle,
`ebcc_decode_into` on an empty byte sequence fails with `InvalidInput` and
performs zero foreign invocations. -/
theorem decode_empty_payload_no_foreign (fdec : ForeignDecode) (out : Grid3) :
    ebcc_decode_into fdec [] out =
      ((.error (.InvalidInput "Compressed data is empty"), out), 0) :=
  ebcc_decode_into_empty fdec out

/-- C8: the translation from a residual mode to the foreign
discriminant-plus-scalar encoding is a pure, total function: base-only maps
to `NONE` with error scalar `0.0`, the absolute bound maps to `MAX_ERROR`
with the bound as scalar, the relative bound maps to `RELATIVE_ERROR` with
the bound as scalar, and the foreign configuration record built by
`ebcc_encode` always carries the placeholder residual ratio `1.0`. -/
theorem residual_translation_total :
    (EBCCResidualType.Jpeg2000Only.as_residual = ResidualT.NONE ∧
      EBCCResidualType.Jpeg2000Only.as_error = F32.finite 0) ∧
    (∀ b, (EBCCResidualType.AbsoluteError b).as_residual = ResidualT.MAX_ERROR ∧
      (EBCCResidualType.AbsoluteError b).as_error = b) ∧
    (∀ b, (EBCCResidualType.RelativeError b).as_residual = ResidualT.RELATIVE_ERROR ∧
      (EBCCResidualType.RelativeError b).as_error = b) ∧
    (∀ (g : Grid3) (c : EBCCConfig), (mkCodecConfig g c).residual_cr = F32.finite 1) :=
  ⟨⟨rfl, rfl⟩, fun _ => ⟨rfl, rfl⟩, fun _ => ⟨rfl, rfl⟩, fun _ _ => rfl⟩

/-- C10: a policy whose base ratio is NaN, and an error-bounded policy whose
bound is NaN, pass validation (the checks compare with `<= 0.0`, which is
false for NaN), and the NaN-ratio policy reaches the foreign call on a valid
grid under every oracle. -/
theorem nan_policy_passes_validation :
    EBCCConfig.validate ⟨F32.nan, .Jpeg2000Only⟩ = .ok () ∧
    EBCCConfig.validate ⟨F32.finite 10, .AbsoluteError F32.nan⟩ = .ok () ∧
    EBCCConfig.validate ⟨F32.finite 10, .RelativeError F32.nan⟩ = .ok () ∧
    ∀ fenc : ForeignEncode,
      (ebcc_encode fenc onesGrid ⟨F32.nan, .Jpeg2000Only⟩).2 = 1 := by
  refine ⟨rfl, rfl, rfl, ?_⟩
  intro fenc
  rw [ebcc_encode_shape_ok fenc onesGrid ⟨F32.nan, .Jpeg2000Only⟩ (by decide)
        (by decide) (by decide) (by decide),
      encodePostShape_foreign fenc onesGrid ⟨F32.nan, .Jpeg2000Only⟩ (by decide)
        (show firstNonFinite onesGrid.data = none from
          firstNonFinite_replicate 1024 1)]

/-- C6 counterexample: the spec control flow puts configuration validation
before input validation and predicts `InvalidConfig` when both fail; the code
runs the shape checks first, so a zero-dimension grid with a negative base
ratio yields `InvalidInput`, not `InvalidConfig`. -/
theorem encode_order_counterexample :
    (∃ m, negRatioConfig.validate = .error (.InvalidConfig m)) ∧
    zeroDimGrid.d0 = 0 ∧
    (ebcc_encode nullForeignEncode zeroDimGrid negRatioConfig).1
      = .error (.InvalidInput "All dimensions must be > 0") ∧
    ∀ m, (ebcc_encode nullForeignEncode zeroDimGrid negRatioConfig).1
      ≠ .error (.InvalidConfig m) := by
  have hres : (ebcc_encode nullForeignEncode zeroDimGrid negRatioConfig).1
      = .error (.InvalidInput "All dimensions must be > 0") := by decide
  refine ⟨⟨"Base compression ratio must be positive", by decide⟩, rfl, hres, ?_⟩
  intro m h
  have h2 := hres.symm.trans h
  simp at h2

/-- C6 amended: on every encode call the shape checks of the Input Validator
run first and configuration validation runs second (but still before the
element scan): a grid with a zero dimension yields `InvalidInput` regardless
of the policy, while a grid passing the shape checks yields the configuration
error whenever validation fails, even when the data also has non-finite
elements. -/
theorem encode_validation_order_amended (fenc : ForeignEncode) (g : Grid3)
    (c : EBCCConfig) :
    ((g.d0 = 0 ∨ g.d1 = 0 ∨ g.d2 = 0) →
      ebcc_encode fenc g c
        = (.error (.InvalidInput "All dimensions must be > 0"), 0)) ∧
    (g.d0 ≠ 0 → 32 ≤ g.d1 → 32 ≤ g.d2 →
      g.d0 * g.d1 * g.d2 ≤ isizeMax / sizeOfF32 →
      ∀ e, c.validate = .error e → ebcc_encode fenc g c = (.error e, 0)) := by
  refine ⟨fun h => ebcc_encode_zero_dim fenc g c h, ?_⟩
  intro h0 h1 h2 hsz e he
  rw [ebcc_encode_shape_ok fenc g c h0 h1 h2 hsz,
      encodePostShape_validate_error fenc g c e he]

/-- C1: for every call to `ebcc_encode`, if the policy fails validation or
the grid is malformed (a zero dimension, an overflowing size, height or width
below 32, or a non-finite element), the call returns a validation error (an
`InvalidInput` or `InvalidConfig`, never a foreign-failure kind) and performs
zero foreign invocations: every validation failure is detected before any
foreign call is attempted. -/
theorem encode_fails_fast_on_invalid (fenc : ForeignEncode) (g : Grid3)
    (c : EBCCConfig)
    (h : (∃ e, c.validate = .error e) ∨ encodeInputMalformed g) :
    (∃ e, (ebcc_encode fenc g c).1 = .error e ∧ e.isForeignFailure = false) ∧
    (ebcc_encode fenc g c).2 = 0 := by
  by_cases hz : g.d0 = 0 ∨ g.d1 = 0 ∨ g.d2 = 0
  · rw [ebcc_encode_zero_dim fenc g c hz]
    exact ⟨⟨_, rfl, rfl⟩, rfl⟩
  · rcases hcp : checkedProduct [g.d0, g.d1, g.d2] with _ | t
    · rw [ebcc_encode_overflow fenc g c hz hcp]
      exact ⟨⟨_, rfl, rfl⟩, rfl⟩
    · have ht := checkedProduct_three_eq_some _ _ _ _ hcp
      by_cases hbig : isizeMax / sizeOfF32 < t
      · rw [ebcc_encode_too_large fenc g c hz t hcp hbig]
        exact ⟨⟨_, rfl, rfl⟩, rfl⟩
      · by_cases hsmall : g.d1 < 32 ∨ g.d2 < 32
        · rw [ebcc_encode_dims_small fenc g c hz t hcp (by omega) hsmall]
          exact ⟨⟨_, rfl, rfl⟩, rfl⟩
        · have hshape := ebcc_encode_shape_ok fenc g c (by omega) (by omega)
            (by omega) (by rw [← ht]; omega)
          rcases hval : c.validate with e | u
          · rw [hshape, encodePostShape_validate_error fenc g c e hval]
            obtain ⟨m, rfl⟩ := validate_error_is_config c e hval
            exact ⟨⟨_, rfl, rfl⟩, rfl⟩
          · cases u
            have hnf : ∃ v ∈ g.data, v.isFinite = false := by
              rcases h with ⟨e, he⟩ | hmal
              · rw [hval] at he
                exact absurd he (by simp)
              · rcases hmal with h' | h' | h' | h' | h' | h' | h'
                · omega
                · omega
                · omega
                · rw [← ht] at h'
                  omega
                · omega
                · omega
                · exact h'
            rcases hfnf : firstNonFinite g.data with _ | iv
            · rw [firstNonFinite_eq_none_iff] at hfnf
              obtain ⟨v0, hv0mem, hv0⟩ := hnf
              rw [hfnf v0 hv0mem] at hv0
              exact absurd hv0 (by simp)
            · rw [hshape, encodePostShape_nonfinite fenc g c iv hval hfnf]
              exact ⟨⟨_, rfl, rfl⟩, rfl⟩

/-- C1 witness: an invalid grid (zero dimension) under a valid policy
returns a validation error with zero foreign invocations. -/
theorem encode_fails_fast_on_invalid_witness :
    ((∃ e, cfg10.validate = .error e) ∨ encodeInputMalformed zeroDimGrid) ∧
    (∃ e, (ebcc_encode nullForeignEncode zeroDimGrid cfg10).1 = .error e ∧
      e.isForeignFailure = false) ∧
    (ebcc_encode nullForeignEncode zeroDimGrid cfg10).2 = 0 := by
  have h := encode_fails_fast_on_invalid nullForeignEncode zeroDimGrid cfg10
    (Or.inr (Or.inl rfl))
  exact ⟨Or.inr (Or.inl rfl), h.1, h.2⟩

/-- C4: encode-input validation fails with `InvalidInput` when any dimension
is 0, fails when the dimension product overflows the maximum addressable
element count for 4-byte elements (either as a `usize` multiplication
overflow or as the explicit `isize::MAX / 4` bound), and fails when the
height or width is below 32, naming the offending dimensions in the error
message. -/
theorem encode_shape_validation (fenc : ForeignEncode) (g : Grid3)
    (c : EBCCConfig) :
    ((g.d0 = 0 ∨ g.d1 = 0 ∨ g.d2 = 0) →
      ebcc_encode fenc g c
        = (.error (.InvalidInput "All dimensions must be > 0"), 0)) ∧
    (g.d0 ≠ 0 → g.d1 ≠ 0 → g.d2 ≠ 0 →
      isizeMax / sizeOfF32 < g.d0 * g.d1 * g.d2 →
      ∃ m, ebcc_encode fenc g c = (.error (.InvalidInput m), 0) ∧
        (m = "Dimension overflow" ∨ m = "Data too large")) ∧
    (g.d0 ≠ 0 → g.d1 ≠ 0 → g.d2 ≠ 0 →
      g.d0 * g.d1 * g.d2 ≤ isizeMax / sizeOfF32 → (g.d1 < 32 ∨ g.d2 < 32) →
      ebcc_encode fenc g c
        = (.error (.InvalidInput (dimsTooSmallMsg g.d1 g.d2)), 0)) := by
  refine ⟨fun h => ebcc_encode_zero_dim fenc g c h, ?_, ?_⟩
  · intro h0 h1 h2 hbig
    rcases hcp : checkedProduct [g.d0, g.d1, g.d2] with _ | t
    · exact ⟨"Dimension overflow",
        ebcc_encode_overflow fenc g c (by omega) hcp, Or.inl rfl⟩
    · have ht := checkedProduct_three_eq_some _ _ _ _ hcp
      refine ⟨"Data too large",
        ebcc_encode_too_large fenc g c (by omega) t hcp ?_, Or.inr rfl⟩
      rw [ht]
      exact hbig
  · intro h0 h1 h2 hle hsmall
    have hmax : g.d0 * g.d1 * g.d2 ≤ usizeMax := by
      have : isizeMax / sizeOfF32 ≤ usizeMax := by decide
      omega
    have hcp := checkedProduct_three_of_le g.d0 g.d1 g.d2 (by omega) (by omega) hmax
    exact ebcc_encode_dims_small fenc g c (by omega) _ hcp hle hsmall

/-- C4 witness: the three shape-validation branches at concrete grids: a
zero dimension, a dimension product of 2 to the power 72, and a 16x40 tail
shape. -/
theorem encode_shape_validation_witness :
    (zeroDimGrid.d0 = 0 ∧
      ebcc_encode nullForeignEncode zeroDimGrid cfg10
        = (.error (.InvalidInput "All dimensions must be > 0"), 0)) ∧
    (hugeGrid.d0 ≠ 0 ∧ isizeMax / sizeOfF32 < hugeGrid.d0 * hugeGrid.d1 * hugeGrid.d2 ∧
      ∃ m, ebcc_encode nullForeignEncode hugeGrid cfg10
          = (.error (.InvalidInput m), 0) ∧
        (m = "Dimension overflow" ∨ m = "Data too large")) ∧
    (smallDimsGrid.d1 < 32 ∧
      ebcc_encode nullForeignEncode smallDimsGrid cfg10
        = (.error (.InvalidInput (dimsTooSmallMsg 16 40)), 0)) :=
  ⟨⟨rfl, (encode_shape_validation nullForeignEncode zeroDimGrid cfg10).1
      (Or.inl rfl)⟩,
   ⟨by decide, by decide,
    (encode_shape_validation nullForeignEncode hugeGrid cfg10).2.1
      (by decide) (by decide) (by decide) (by decide)⟩,
   ⟨by decide,
    (encode_shape_validation nullForeignEncode smallDimsGrid cfg10).2.2
      (by decide) (by decide) (by decide) (by decide) (by decide)⟩⟩

/-- C5: for every grid that passes the shape and configuration checks, if
some element is non-finite then `ebcc_encode` fails with `InvalidInput`
identifying the flat index of the first offending element in iteration order
(zero foreign invocations), and if all elements are finite the scan passes
and the foreign call is reached. -/
theorem encode_first_nonfinite_reported (fenc : ForeignEncode) (g : Grid3)
    (c : EBCCConfig) (h0 : g.d0 ≠ 0) (h1 : 32 ≤ g.d1) (h2 : 32 ≤ g.d2)
    (hsz : g.d0 * g.d1 * g.d2 ≤ isizeMax / sizeOfF32)
    (hc : c.validate = .ok ()) :
    ((∃ v ∈ g.data, v.isFinite = false) →
      ∃ i v, ebcc_encode fenc g c
          = (.error (.InvalidInput ("Non-finite value " ++ v.display
              ++ " at index " ++ toString i)), 0) ∧
        i < g.data.length ∧ g.data.getD i F32.nan = v ∧ v.isFinite = false ∧
        ∀ j < i, (g.data.getD j F32.nan).isFinite = true) ∧
    ((∀ v ∈ g.data, v.isFinite = true) → (ebcc_encode fenc g c).2 = 1) := by
  have hshape := ebcc_encode_shape_ok fenc g c h0 h1 h2 hsz
  constructor
  · rintro ⟨v0, hv0mem, hv0⟩
    rcases hfnf : firstNonFinite g.data with _ | iv
    · rw [firstNonFinite_eq_none_iff] at hfnf
      rw [hfnf v0 hv0mem] at hv0
      exact absurd hv0 (by simp)
    · obtain ⟨i, v⟩ := iv
      obtain ⟨hlen, hget, hfin, hmin⟩ := firstNonFinite_spec g.data i v hfnf
      refine ⟨i, v, ?_, hlen, hget, hfin, hmin⟩
      rw [hshape, encodePostShape_nonfinite fenc g c (i, v) hc hfnf]
      rfl
  · intro hfin
    rw [hshape, encodePostShape_foreign fenc g c hc
        ((firstNonFinite_eq_none_iff g.data).mpr hfin)]

/-- C5 witness: a well-formed 1x32x32 grid whose element at flat index 0 is
NaN fails with the error naming index 0, under the valid default policy. -/
theorem encode_first_nonfinite_reported_witness :
    (nanGrid.d0 ≠ 0 ∧ 32 ≤ nanGrid.d1 ∧ 32 ≤ nanGrid.d2 ∧
      nanGrid.d0 * nanGrid.d1 * nanGrid.d2 ≤ isizeMax / sizeOfF32 ∧
      cfg10.validate = .ok () ∧ F32.nan ∈ nanGrid.data ∧
      F32.nan.isFinite = false) ∧
    (∃ i v, ebcc_encode nullForeignEncode nanGrid cfg10
        = (.error (.InvalidInput ("Non-finite value " ++ v.display
            ++ " at index " ++ toString i)), 0) ∧
      i < nanGrid.data.length ∧ nanGrid.data.getD i F32.nan = v ∧
      v.isFinite = false ∧
      ∀ j < i, (nanGrid.data.getD j F32.nan).isFinite = true) := by
  refine ⟨⟨by decide, by decide, by decide, by decide, by decide, by decide,
    rfl⟩, ?_⟩
  exact (encode_first_nonfinite_reported nullForeignEncode nanGrid cfg10
    (by decide) (by decide) (by decide) (by decide) (by decide)).1
    ⟨F32.nan, by decide, rfl⟩

/-- C2: `ebcc_decode_into` leaves the output storage of the caller completely
unchanged on every failing path, and when the foreign decode succeeds with an
element count that does not match the element count implied by the target
output shape, it fails with `InvalidInput` describing the expected shape
versus the actual element count. -/
theorem decode_mismatch_and_frame (fdec : ForeignDecode) (bytes : List Nat)
    (out : Grid3) :
    (∀ e, ((ebcc_decode_into fdec bytes out).1).1 = .error e →
      ((ebcc_decode_into fdec bytes out).1).2 = out) ∧
    (bytes ≠ [] → ∀ size buf, fdec bytes bytes.length = (size, some buf) →
      size ≠ 0 → (buf.take size).length ≠ out.d0 * out.d1 * out.d2 →
      ebcc_decode_into fdec bytes out =
        ((.error (.InvalidInput ("Decompressed data should be of shape "
            ++ shapeDebug out ++ " but decompressed to "
            ++ toString (buf.take size).length ++ " elements")), out), 1)) :=
  ⟨fun e he => ebcc_decode_into_frame fdec bytes out e he,
   fun hne size buf hf hsz hlen =>
     ebcc_decode_into_mismatch fdec bytes out hne size buf hf hsz hlen⟩

/-- C2 witness: a decode oracle that returns 2 elements against a 1x1x1
target fails with the mismatch message and leaves the target unchanged. -/
theorem decode_mismatch_and_frame_witness :
    ([5] ≠ ([] : List Nat)) ∧ (2 ≠ 0) ∧
    pairDecodeOracle [5] (List.length [5])
      = (2, some [F32.finite 0, F32.finite 0]) ∧
    (([F32.finite 0, F32.finite 0].take 2).length
      ≠ tinyGrid.d0 * tinyGrid.d1 * tinyGrid.d2) ∧
    ebcc_decode_into pairDecodeOracle [5] tinyGrid =
      ((.error (.InvalidInput ("Decompressed data should be of shape "
          ++ shapeDebug tinyGrid ++ " but decompressed to "
          ++ toString (([F32.finite 0, F32.finite 0].take 2)).length
          ++ " elements")), tinyGrid), 1) ∧
    ((ebcc_decode_into pairDecodeOracle [5] tinyGrid).1).2 = tinyGrid := by
  have h2 := (decode_mismatch_and_frame pairDecodeOracle [5] tinyGrid).2
    (by decide) 2 [F32.finite 0, F32.finite 0] rfl (by decide) (by decide)
  have h1 := (decode_mismatch_and_frame pairDecodeOracle [5] tinyGrid).1
    (.InvalidInput ("Decompressed data should be of shape "
      ++ shapeDebug tinyGrid ++ " but decompressed to "
      ++ toString (([F32.finite 0, F32.finite 0].take 2)).length ++ " elements"))
    (by rw [h2])
  exact ⟨by decide, by decide, rfl, by decide, h2, h1⟩

/-- C9: for every valid grid and valid policy, and every pair of foreign
oracles that function on this round trip (the foreign encode succeeds with a
buffer holding its returned size in bytes, and the foreign decode on those
bytes succeeds returning exactly the element count of the original grid),
decoding the result of encoding into an output view of the original shape
succeeds and produces an array of the same shape as the original. -/
theorem roundtrip_shape_invariant (fenc : ForeignEncode) (fdec : ForeignDecode)
    (g out : Grid3) (c : EBCCConfig)
    (h0 : g.d0 ≠ 0) (h1 : 32 ≤ g.d1) (h2 : 32 ≤ g.d2)
    (hsz : g.d0 * g.d1 * g.d2 ≤ isizeMax / sizeOfF32)
    (hfin : ∀ v ∈ g.data, v.isFinite = true) (hc : c.validate = .ok ())
    (hout0 : out.d0 = g.d0) (hout1 : out.d1 = g.d1) (hout2 : out.d2 = g.d2)
    (esz : Nat) (ebuf : List Nat)
    (henc : fenc g.data (mkCodecConfig g c) = (esz, some ebuf))
    (hesz : esz ≠ 0) (helen : ebuf.length = esz)
    (dbuf : List F32)
    (hdec : fdec ebuf esz = (g.d0 * g.d1 * g.d2, some dbuf))
    (hdlen : g.d0 * g.d1 * g.d2 ≤ dbuf.length) :
    ebcc_encode fenc g c = (.ok ebuf, 1) ∧
    ((ebcc_decode_into fdec ebuf out).1).1 = .ok () ∧
    (((ebcc_decode_into fdec ebuf out).1).2).d0 = g.d0 ∧
    (((ebcc_decode_into fdec ebuf out).1).2).d1 = g.d1 ∧
    (((ebcc_decode_into fdec ebuf out).1).2).d2 = g.d2 ∧
    (((ebcc_decode_into fdec ebuf out).1).2).wf := by
  subst helen
  have henceq : ebcc_encode fenc g c = (.ok ebuf, 1) := by
    rw [ebcc_encode_shape_ok fenc g c h0 h1 h2 hsz,
        encodePostShape_foreign fenc g c hc
          ((firstNonFinite_eq_none_iff g.data).mpr hfin), henc]
    simp [foreignEncodeOutcome, hesz, List.take_length]
  have hne : ebuf ≠ [] := by
    intro hnil
    rw [hnil] at hesz
    exact hesz rfl
  have hprod : g.d0 * g.d1 * g.d2 ≠ 0 :=
    Nat.mul_ne_zero (Nat.mul_ne_zero h0 (by omega)) (by omega)
  have hlen : (dbuf.take (g.d0 * g.d1 * g.d2)).length
      = out.d0 * out.d1 * out.d2 := by
    rw [List.length_take, hout0, hout1, hout2]
    omega
  have hdeq := ebcc_decode_into_success fdec ebuf out hne _ dbuf hdec hprod hlen
  rw [hdeq]
  exact ⟨henceq, rfl, hout0, hout1, hout2,
    show (dbuf.take (g.d0 * g.d1 * g.d2)).length
        = out.d0 * out.d1 * out.d2 from hlen⟩

/-- C9 witness: the round trip at a concrete all-ones 1x32x32 grid with
concrete conforming oracles succeeds and preserves the shape. -/
theorem roundtrip_shape_invariant_witness :
    cfg10.validate = .ok () ∧
    ebcc_encode constEncodeOracle onesGrid cfg10 = (.ok [7, 7, 7], 1) ∧
    ((ebcc_decode_into constDecodeOracle [7, 7, 7] zerosGrid).1).1 = .ok () ∧
    (((ebcc_decode_into constDecodeOracle [7, 7, 7] zerosGrid).1).2).d0 = 1 ∧
    (((ebcc_decode_into constDecodeOracle [7, 7, 7] zerosGrid).1).2).d1 = 32 ∧
    (((ebcc_decode_into constDecodeOracle [7, 7, 7] zerosGrid).1).2).d2 = 32 := by
  have hfin : ∀ v ∈ onesGrid.data, v.isFinite = true := by
    intro v hv
    rw [List.eq_of_mem_replicate hv]
    rfl
  have hdlen : onesGrid.d0 * onesGrid.d1 * onesGrid.d2
      ≤ (List.replicate 1024 (F32.finite 1)).length := by
    rw [List.length_replicate]
    decide
  have h := roundtrip_shape_invariant constEncodeOracle constDecodeOracle
    onesGrid zerosGrid cfg10 (by decide) (by decide) (by decide) (by decide)
    hfin (by decide) rfl rfl rfl 3 [7, 7, 7] rfl (by decide) rfl
    (List.replicate 1024 (F32.finite 1)) rfl hdlen
  exact ⟨by decide, h.1, h.2.1, h.2.2.1, h.2.2.2.1, h.2.2.2.2.1⟩

/-- C6 amended witness: at a zero-dimension grid the error is `InvalidInput`
even under an invalid policy, and at a NaN-carrying well-shaped grid the
configuration error is returned (validation precedes the element scan). -/
theorem encode_validation_order_amended_witness :
    (zeroDimGrid.d0 = 0 ∧
      ebcc_encode nullForeignEncode zeroDimGrid negRatioConfig
        = (.error (.InvalidInput "All dimensions must be > 0"), 0)) ∧
    (nanGrid.d0 ≠ 0 ∧ 32 ≤ nanGrid.d1 ∧ 32 ≤ nanGrid.d2 ∧
      nanGrid.d0 * nanGrid.d1 * nanGrid.d2 ≤ isizeMax / sizeOfF32 ∧
      negRatioConfig.validate
        = .error (.InvalidConfig "Base compression ratio must be positive") ∧
      ebcc_encode nullForeignEncode nanGrid negRatioConfig
        = (.error (.InvalidConfig "Base compression ratio must be positive"), 0)) :=
  ⟨⟨rfl, (encode_validation_order_amended nullForeignEncode zeroDimGrid
      negRatioConfig).1 (Or.inl rfl)⟩,
   ⟨by decide, by decide, by decide, by decide, by decide,
    (encode_validation_order_amended nullForeignEncode nanGrid negRatioConfig).2
      (by decide) (by decide) (by decide) (by decide) _ (by decide)⟩⟩

end Ebcc
